import Mathlib

/-!
Verification of the leaderboard stream processor
(`src/processor/leaderboard_processor.py`).

We shallowly embed the processor's event-handling core: the Redis-backed
aggregate state, the three event handlers, the dedup check, `process_event`,
and one poll/process/commit cycle of `run_processor`.  Python dicts for
events become a record of `Option` fields (a missing key raises `KeyError`
exactly where the source subscripts the dict); Redis hashes map fields to
values that are either integer-valued or plain strings (`HINCRBY` on a
non-integer value raises a response error, as in Redis); each store call is
also recorded in a trace of operations so that ordering claims
(mutate-then-mark, push-before-trim, commit-after-batch) can be stated.
-/

namespace Leaderboard

/-- A value stored in a Redis hash field: Redis stores strings, and the
integer commands (`HINCRBY`) treat a field as an integer when its string
content is one.  We distinguish the two shapes directly. -/
inductive RVal where
  | int (n : Int)
  | str (s : String)
deriving DecidableEq, Repr

/-- An event as consumed from Kafka: a JSON object, here a record of
optional fields.  `none` models an absent key; `event.get` reads an
optional field, a direct subscript `event["k"]` raises `KeyError` when the
field is absent. -/
structure Event where
  event_id : Option String := none
  event_type : Option String := none
  player_id : Option String := none
  player_name : Option String := none
  points : Option Int := none
  action : Option String := none
  timestamp : Option String := none
  game_id : Option String := none
  achievement_name : Option String := none
  achievement_rarity : Option String := none
deriving DecidableEq, Repr

/-- The serialized achievement record pushed onto `achievements:recent`
(the source serializes this dict with `json.dumps`; serialization is
injective, so we keep the record itself). -/
structure AchRecord where
  player : String
  achievement : String
  rarity : String
  timestamp : String
deriving DecidableEq, Repr

/-- One Redis / Kafka operation, recorded in execution traces. -/
inductive Op where
  | sismember (id : String)
  | sadd (id : String)
  | zincrby (member : String) (delta : Int)
  | hincrby (key field : String) (delta : Int)
  | hset (key field : String) (v : RVal)
  | hsetnx (key field : String) (v : RVal)
  | lpush (key : String) (v : AchRecord)
  | ltrim (key : String) (start stop : Int)
  | zrevrank (member : String)
  | commit
deriving DecidableEq, Repr

/-- Python exceptions that the handlers can raise:
`KeyError` from subscripting a dict missing that key, and the Redis
response error raised by `HINCRBY` on a non-integer field value. -/
inductive PyErr where
  | keyError (field : String)
  | responseError
deriving DecidableEq, Repr

-- Redis key names (configuration block of the source).
def LEADERBOARD_KEY : String := "leaderboard:global"
def PLAYER_STATS_PREFIX : String := "player:stats:"
def ACHIEVEMENTS_KEY : String := "achievements:recent"
def PROCESSED_EVENTS_KEY : String := "processed:events"

/-- The aggregate state held in Redis:
the leaderboard sorted set (member → score, `none` = not a member),
all hashes (key → field → value), the `achievements:recent` list and the
`processed:events` dedup set. -/
structure RedisState where
  leaderboard : String → Option Int
  hashes : String → String → Option RVal
  achievements : List AchRecord
  processed : String → Bool

/-- The empty Redis database. -/
def RedisState.empty : RedisState :=
  { leaderboard := fun _ => none
    hashes := fun _ _ => none
    achievements := []
    processed := fun _ => false }

/-- `ZINCRBY`: increment a member's score in the sorted set, treating an
absent member as score 0. -/
def RedisState.zincrbyS (s : RedisState) (member : String) (delta : Int) :
    RedisState :=
  { s with leaderboard := fun m =>
      if m = member then some ((s.leaderboard member).getD 0 + delta)
      else s.leaderboard m }

/-- `HSET`: unconditional overwrite of a hash field. -/
def RedisState.hsetS (s : RedisState) (key field : String) (v : RVal) :
    RedisState :=
  { s with hashes := fun k f =>
      if k = key ∧ f = field then some v else s.hashes k f }

/-- `HSETNX`: set a hash field only if it is absent. -/
def RedisState.hsetnxS (s : RedisState) (key field : String) (v : RVal) :
    RedisState :=
  { s with hashes := fun k f =>
      if k = key ∧ f = field then
        match s.hashes key field with
        | none => some v
        | some old => some old
      else s.hashes k f }

/-- The value `HINCRBY` would store: increment an integer hash field
(absent = 0); `none` when the present value is not an integer, in which
case the call raises a response error instead of storing anything.  The
atomic `HINCRBY key field delta` is then modelled as computing this value
and storing it with `hsetS`. -/
def RedisState.hincrbyVal (s : RedisState) (key field : String)
    (delta : Int) : Option RVal :=
  match s.hashes key field with
  | some (.str _) => none
  | some (.int n) => some (.int (n + delta))
  | none => some (.int delta)

/-- `SADD` on the `processed:events` set. -/
def RedisState.saddS (s : RedisState) (id : String) : RedisState :=
  { s with processed := fun x => if x = id then true else s.processed x }

/-- `LPUSH` then `LTRIM 0 99` keeps the newest 100 entries; `LPUSH` alone
prepends. -/
def RedisState.lpushS (s : RedisState) (r : AchRecord) : RedisState :=
  { s with achievements := r :: s.achievements }

/-- `LTRIM key 0 99`: keep only the first 100 entries of the list. -/
def RedisState.ltrimS (s : RedisState) (n : Nat) : RedisState :=
  { s with achievements := s.achievements.take n }

/-- Result of running one handler: the state after every store call that
executed, the trace of those calls, and the exception that escaped the
handler, if any (Python keeps already-performed mutations when an
exception is raised mid-handler). -/
structure HRes where
  st : RedisState
  tr : List Op
  err : Option PyErr

/-- `is_event_processed`: membership test on the `processed:events` set
(`SISMEMBER`). -/
def is_event_processed (s : RedisState) (event_id : String) : Bool :=
  s.processed event_id

/-- `mark_event_processed`: `SADD` the event id into `processed:events`
(the documented 24h expiry is not implemented). -/
def mark_event_processed (s : RedisState) (event_id : String) : RedisState :=
  s.saddS event_id

/-- `handle_player_scored` (source lines 204-246): reads
`player_id`, `player_name`, `points` (each raising `KeyError` if absent),
`action` via `.get` with default `"unknown"`, then performs
`ZINCRBY` on the leaderboard, three `HINCRBY`s and `HSET player_name` on
the stats hash, reads `event["timestamp"]` (`KeyError` if absent) for
`HSET last_active`, and finally a read-only `ZREVRANK`.  A `KeyError` or
Redis error raised mid-way leaves the earlier mutations in place. -/
def handle_player_scored (s : RedisState) (e : Event) : HRes :=
  match e.player_id with
  | none => ⟨s, [], some (.keyError "player_id")⟩
  | some player_id =>
  match e.player_name with
  | none => ⟨s, [], some (.keyError "player_name")⟩
  | some player_name =>
  match e.points with
  | none => ⟨s, [], some (.keyError "points")⟩
  | some points =>
  let action := e.action.getD "unknown"
  let s1 := s.zincrbyS player_name points
  let t1 := [Op.zincrby player_name points]
  let stats_key := PLAYER_STATS_PREFIX ++ player_id
  match s1.hincrbyVal stats_key "total_score" points with
  | none => ⟨s1, t1, some .responseError⟩
  | some v1 =>
  let s2 := s1.hsetS stats_key "total_score" v1
  let t2 := t1 ++ [Op.hincrby stats_key "total_score" points]
  match s2.hincrbyVal stats_key "events_count" 1 with
  | none => ⟨s2, t2, some .responseError⟩
  | some v2 =>
  let s3 := s2.hsetS stats_key "events_count" v2
  let t3 := t2 ++ [Op.hincrby stats_key "events_count" 1]
  match s3.hincrbyVal stats_key ("action:" ++ action) 1 with
  | none => ⟨s3, t3, some .responseError⟩
  | some v3 =>
  let s4 := s3.hsetS stats_key ("action:" ++ action) v3
  let t4 := t3 ++ [Op.hincrby stats_key ("action:" ++ action) 1]
  let s5 := s4.hsetS stats_key "player_name" (.str player_name)
  let t5 := t4 ++ [Op.hset stats_key "player_name" (.str player_name)]
  match e.timestamp with
  | none => ⟨s5, t5, some (.keyError "timestamp")⟩
  | some ts =>
  let s6 := s5.hsetS stats_key "last_active" (.str ts)
  let t6 := t5 ++ [Op.hset stats_key "last_active" (.str ts),
                   Op.zrevrank player_name]
  ⟨s6, t6, none⟩

/-- `handle_player_joined` (source lines 249-267): reads `player_id`,
`player_name`, `game_id` (each raising `KeyError` if absent), then
`HSETNX total_score 0`, `HSET player_name`, `HINCRBY games_joined 1`,
`HSET last_game`. -/
def handle_player_joined (s : RedisState) (e : Event) : HRes :=
  match e.player_id with
  | none => ⟨s, [], some (.keyError "player_id")⟩
  | some player_id =>
  match e.player_name with
  | none => ⟨s, [], some (.keyError "player_name")⟩
  | some player_name =>
  match e.game_id with
  | none => ⟨s, [], some (.keyError "game_id")⟩
  | some game_id =>
  let stats_key := PLAYER_STATS_PREFIX ++ player_id
  let s1 := s.hsetnxS stats_key "total_score" (.int 0)
  let t1 := [Op.hsetnx stats_key "total_score" (.int 0)]
  let s2 := s1.hsetS stats_key "player_name" (.str player_name)
  let t2 := t1 ++ [Op.hset stats_key "player_name" (.str player_name)]
  match s2.hincrbyVal stats_key "games_joined" 1 with
  | none => ⟨s2, t2, some .responseError⟩
  | some v2 =>
  let s3 := s2.hsetS stats_key "games_joined" v2
  let t3 := t2 ++ [Op.hincrby stats_key "games_joined" 1]
  let s4 := s3.hsetS stats_key "last_game" (.str game_id)
  let t4 := t3 ++ [Op.hset stats_key "last_game" (.str game_id)]
  ⟨s4, t4, none⟩

/-- `handle_achievement` (source lines 270-310): reads `player_name`,
`achievement_name`, `achievement_rarity`, `timestamp` (each raising
`KeyError` if absent), serializes the record, `LPUSH`es it onto
`achievements:recent` and then `LTRIM 0 99` caps the list at 100. -/
def handle_achievement (s : RedisState) (e : Event) : HRes :=
  match e.player_name with
  | none => ⟨s, [], some (.keyError "player_name")⟩
  | some player_name =>
  match e.achievement_name with
  | none => ⟨s, [], some (.keyError "achievement_name")⟩
  | some achievement_name =>
  match e.achievement_rarity with
  | none => ⟨s, [], some (.keyError "achievement_rarity")⟩
  | some rarity =>
  match e.timestamp with
  | none => ⟨s, [], some (.keyError "timestamp")⟩
  | some timestamp =>
  let achievement_record : AchRecord :=
    ⟨player_name, achievement_name, rarity, timestamp⟩
  let s1 := s.lpushS achievement_record
  let s2 := s1.ltrimS 100
  ⟨s2, [Op.lpush ACHIEVEMENTS_KEY achievement_record,
        Op.ltrim ACHIEVEMENTS_KEY 0 99], none⟩

/-- Result of `process_event`: final state, trace, and the returned
boolean (`True` = processed or skipped-as-duplicate, `False` = invalid,
unknown kind, or handler error — all exceptions are caught inside). -/
structure PRes where
  st : RedisState
  tr : List Op
  ok : Bool

/-- Routing of `process_event`'s `try` block (source lines 333-342):
dispatch on `event_type` to exactly one handler, or report an unknown
kind. -/
inductive RouteRes where
  | handled (r : HRes)
  | unknownKind

/-- The dispatch of source lines 334-342. -/
def route_event (s : RedisState) (e : Event) (event_type : String) :
    RouteRes :=
  if event_type = "player_scored" then .handled (handle_player_scored s e)
  else if event_type = "player_joined" then .handled (handle_player_joined s e)
  else if event_type = "achievement_unlocked" then
    .handled (handle_achievement s e)
  else .unknownKind

/-- `process_event` (source lines 313-353): validate presence (and Python
truthiness — `not event_id` is also true for the empty string) of
`event_id` and `event_type`; consult the dedup set and skip duplicates
returning `True`; route to the handler; on handler success `SADD` the id
(mark-after-mutate) and return `True`; unknown kinds and caught handler
exceptions return `False`. -/
def process_event (s : RedisState) (e : Event) : PRes :=
  match e.event_id, e.event_type with
  | some event_id, some event_type =>
    if event_id = "" ∨ event_type = "" then ⟨s, [], false⟩
    else if is_event_processed s event_id then
      ⟨s, [.sismember event_id], true⟩
    else
      match route_event s e event_type with
      | .unknownKind => ⟨s, [.sismember event_id], false⟩
      | .handled ⟨s', tr, some _⟩ =>
          ⟨s', .sismember event_id :: tr, false⟩
      | .handled ⟨s', tr, none⟩ =>
          ⟨mark_event_processed s' event_id,
           .sismember event_id :: tr ++ [.sadd event_id], true⟩
  | _, _ => ⟨s, [], false⟩

/-- Fold `process_event` over a sequence of delivered events, keeping the
final state (the success booleans only drive logging). -/
def processAll (s : RedisState) (evs : List Event) : RedisState :=
  evs.foldl (fun st e => (process_event st e).st) s

/-- Process the messages of one partition of a polled batch, in delivery
order, concatenating the traces (`run_processor`, inner loop of source
lines 447-458). -/
def process_messages (s : RedisState) (msgs : List Event) :
    RedisState × List Op :=
  msgs.foldl
    (fun (p : RedisState × List Op) e =>
      let r := process_event p.1 e
      (r.st, p.2 ++ r.tr)) (s, [])

/-- The `Processing` stage of one poll cycle: iterate every message of
every partition of the polled batch, in delivery order (`run_processor`,
source lines 446-458).  Per-event failures only affect logging. -/
def process_batch (s : RedisState) (batch : List (List Event)) :
    RedisState × List Op :=
  batch.foldl
    (fun (p : RedisState × List Op) msgs =>
      let q := process_messages p.1 msgs
      (q.1, p.2 ++ q.2)) (s, [])

/-- One poll cycle of `run_processor` with the store reachable (source
lines 446-462): iterate every message of every partition of the batch,
then `consumer.commit()`. -/
def poll_cycle (s : RedisState) (batch : List (List Event)) :
    RedisState × List Op :=
  let p := process_batch s batch
  (p.1, p.2 ++ [Op.commit])

/-- The integer content of a hash field for `HINCRBY` purposes: an absent
field counts as 0 (a non-integer string field would instead make `HINCRBY`
raise, handled separately). -/
def hashInt (s : RedisState) (key field : String) : Int :=
  match s.hashes key field with
  | some (.int n) => n
  | _ => 0

/-- Outcome of one poll cycle of `run_processor` as seen by the loop:
either the batch was fully iterated and the offsets committed (the loop
returns to polling), or an exception escaped the body — it is logged as a
fatal error by the `except` clause of lines 469-471 and re-raised, and the
process terminates. -/
inductive CycleOutcome where
  | committed
  | terminated
deriving DecidableEq, Repr

/-- `process_event` when the aggregate store is unreachable: the pure
validation of lines 319-325 runs without any store call, so an invalid
event still just returns `False`; for a valid event the dedup check
`is_event_processed` (line 328) raises a connection error, which sits
outside the `try` of lines 333-353 and therefore escapes `process_event`.
Returns `true` iff the call raises. -/
def process_event_store_down (e : Event) : Bool :=
  match e.event_id, e.event_type with
  | some event_id, some event_type =>
      !(event_id == "" || event_type == "")
  | _, _ => false

/-- Whether iterating one partition's messages with the store down raises
(the iteration stops at the first event that touches the store). -/
def messages_store_down : List Event → Bool
  | [] => false
  | e :: rest =>
      if process_event_store_down e then true else messages_store_down rest

/-- Whether iterating the whole batch with the store down raises. -/
def batch_store_down : List (List Event) → Bool
  | [] => false
  | msgs :: rest =>
      if messages_store_down msgs then true else batch_store_down rest

/-- One poll cycle of `run_processor` while the aggregate store is
unreachable: if any event of the batch reaches the dedup check, the
connection error escapes the loop body, is logged as fatal and re-raised
(lines 469-471) — the cycle's commit never runs and the process
terminates.  If no event touches the store (all invalid), the batch's
commit still runs and the loop continues. -/
def poll_cycle_store_down (batch : List (List Event)) : CycleOutcome :=
  if batch_store_down batch then .terminated else .committed

/-! ### Projection lemmas for the atomic store primitives -/

@[simp] theorem zincrbyS_processed (s : RedisState) (m : String) (d : Int) :
    (s.zincrbyS m d).processed = s.processed := rfl

@[simp] theorem zincrbyS_hashes (s : RedisState) (m : String) (d : Int) :
    (s.zincrbyS m d).hashes = s.hashes := rfl

@[simp] theorem zincrbyS_achievements (s : RedisState) (m : String)
    (d : Int) : (s.zincrbyS m d).achievements = s.achievements := rfl

theorem zincrbyS_leaderboard (s : RedisState) (m : String) (d : Int)
    (m' : String) :
    (s.zincrbyS m d).leaderboard m' =
      if m' = m then some ((s.leaderboard m).getD 0 + d)
      else s.leaderboard m' := rfl

@[simp] theorem hsetS_processed (s : RedisState) (k f : String) (v : RVal) :
    (s.hsetS k f v).processed = s.processed := rfl

@[simp] theorem hsetS_leaderboard (s : RedisState) (k f : String)
    (v : RVal) : (s.hsetS k f v).leaderboard = s.leaderboard := rfl

@[simp] theorem hsetS_achievements (s : RedisState) (k f : String)
    (v : RVal) : (s.hsetS k f v).achievements = s.achievements := rfl

theorem hsetS_hashes (s : RedisState) (k f : String) (v : RVal)
    (k' f' : String) :
    (s.hsetS k f v).hashes k' f' =
      if k' = k ∧ f' = f then some v else s.hashes k' f' := rfl

@[simp] theorem hsetnxS_processed (s : RedisState) (k f : String)
    (v : RVal) : (s.hsetnxS k f v).processed = s.processed := rfl

@[simp] theorem hsetnxS_leaderboard (s : RedisState) (k f : String)
    (v : RVal) : (s.hsetnxS k f v).leaderboard = s.leaderboard := rfl

@[simp] theorem hsetnxS_achievements (s : RedisState) (k f : String)
    (v : RVal) : (s.hsetnxS k f v).achievements = s.achievements := rfl

theorem hsetnxS_hashes_of_absent (s : RedisState) (k f : String) (v : RVal)
    (h : s.hashes k f = none) (k' f' : String) :
    (s.hsetnxS k f v).hashes k' f' =
      if k' = k ∧ f' = f then some v else s.hashes k' f' := by
  unfold RedisState.hsetnxS
  simp only [h]

theorem hsetnxS_hashes_of_present (s : RedisState) (k f : String)
    (v w : RVal) (h : s.hashes k f = some w) (k' f' : String) :
    (s.hsetnxS k f v).hashes k' f' =
      if k' = k ∧ f' = f then some w else s.hashes k' f' := by
  unfold RedisState.hsetnxS
  simp only [h]

@[simp] theorem saddS_leaderboard (s : RedisState) (id : String) :
    (s.saddS id).leaderboard = s.leaderboard := rfl

@[simp] theorem saddS_hashes (s : RedisState) (id : String) :
    (s.saddS id).hashes = s.hashes := rfl

@[simp] theorem saddS_achievements (s : RedisState) (id : String) :
    (s.saddS id).achievements = s.achievements := rfl

theorem saddS_processed (s : RedisState) (id x : String) :
    (s.saddS id).processed x = if x = id then true else s.processed x := rfl

@[simp] theorem lpushS_processed (s : RedisState) (r : AchRecord) :
    (s.lpushS r).processed = s.processed := rfl

@[simp] theorem lpushS_leaderboard (s : RedisState) (r : AchRecord) :
    (s.lpushS r).leaderboard = s.leaderboard := rfl

@[simp] theorem lpushS_hashes (s : RedisState) (r : AchRecord) :
    (s.lpushS r).hashes = s.hashes := rfl

@[simp] theorem lpushS_achievements (s : RedisState) (r : AchRecord) :
    (s.lpushS r).achievements = r :: s.achievements := rfl

@[simp] theorem ltrimS_processed (s : RedisState) (n : Nat) :
    (s.ltrimS n).processed = s.processed := rfl

@[simp] theorem ltrimS_leaderboard (s : RedisState) (n : Nat) :
    (s.ltrimS n).leaderboard = s.leaderboard := rfl

@[simp] theorem ltrimS_hashes (s : RedisState) (n : Nat) :
    (s.ltrimS n).hashes = s.hashes := rfl

@[simp] theorem ltrimS_achievements (s : RedisState) (n : Nat) :
    (s.ltrimS n).achievements = s.achievements.take n := rfl

theorem hincrbyVal_eq_of_ok (s : RedisState) (k f : String) (d : Int)
    (h : s.hashes k f = none ∨ ∃ n, s.hashes k f = some (.int n)) :
    s.hincrbyVal k f d = some (.int (hashInt s k f + d)) := by
  unfold RedisState.hincrbyVal hashInt
  rcases h with h | ⟨n, h⟩ <;> simp only [h]
  simp only [Int.zero_add]

/-! ### Frame lemmas for the handlers -/

/-- `handle_player_scored` never touches the dedup set or the achievement
feed, whether it completes or raises mid-way. -/
theorem handle_player_scored_frame (s : RedisState) (e : Event) :
    (handle_player_scored s e).st.processed = s.processed ∧
    (handle_player_scored s e).st.achievements = s.achievements := by
  unfold handle_player_scored
  dsimp only
  repeat' split
  all_goals simp

/-- `handle_player_joined` never touches the dedup set, the achievement
feed or the leaderboard. -/
theorem handle_player_joined_frame (s : RedisState) (e : Event) :
    (handle_player_joined s e).st.processed = s.processed ∧
    (handle_player_joined s e).st.achievements = s.achievements ∧
    (handle_player_joined s e).st.leaderboard = s.leaderboard := by
  unfold handle_player_joined
  dsimp only
  repeat' split
  all_goals simp

/-- `handle_achievement` never touches the dedup set, the leaderboard or
any hash. -/
theorem handle_achievement_frame (s : RedisState) (e : Event) :
    (handle_achievement s e).st.processed = s.processed ∧
    (handle_achievement s e).st.leaderboard = s.leaderboard ∧
    (handle_achievement s e).st.hashes = s.hashes := by
  unfold handle_achievement
  dsimp only
  repeat' split
  all_goals simp

/-- As soon as its three leading field reads succeed,
`handle_player_scored` has performed the `ZINCRBY` — whether or not it
later raises — and performs no other leaderboard write. -/
theorem handle_player_scored_leaderboard (s : RedisState) (e : Event)
    (pid pn : String) (p : Int) (hpid : e.player_id = some pid)
    (hpn : e.player_name = some pn) (hp : e.points = some p) (m : String) :
    (handle_player_scored s e).st.leaderboard m =
      if m = pn then some ((s.leaderboard pn).getD 0 + p)
      else s.leaderboard m := by
  unfold handle_player_scored
  rw [hpid, hpn, hp]
  dsimp only
  repeat' split
  all_goals simp_all [zincrbyS_leaderboard]

/-- If the event is not for player name `m`, `handle_player_scored`
leaves `m`'s leaderboard score alone. -/
theorem handle_player_scored_leaderboard_frame (s : RedisState) (e : Event)
    (m : String) (h : e.player_name ≠ some m) :
    (handle_player_scored s e).st.leaderboard m = s.leaderboard m := by
  rcases hpid : e.player_id with _ | pid
  · unfold handle_player_scored; rw [hpid]
  · rcases hpn : e.player_name with _ | pn
    · unfold handle_player_scored; rw [hpid, hpn]
    · rcases hp : e.points with _ | p
      · unfold handle_player_scored; rw [hpid, hpn, hp]
      · rw [handle_player_scored_leaderboard s e pid pn p hpid hpn hp m,
          if_neg]
        intro hm
        exact h (hpn.trans (congrArg some hm.symm))

/-- Handler traces contain neither a dedup mark (`SADD`) nor an offset
commit: those belong to `process_event` and to the ingestion loop. -/
theorem handle_player_scored_tr (s : RedisState) (e : Event) :
    (∀ j, Op.sadd j ∉ (handle_player_scored s e).tr) ∧
    Op.commit ∉ (handle_player_scored s e).tr := by
  unfold handle_player_scored
  dsimp only
  repeat' split
  all_goals simp

/-- Handler traces contain neither a dedup mark nor a commit
(`handle_player_joined`). -/
theorem handle_player_joined_tr (s : RedisState) (e : Event) :
    (∀ j, Op.sadd j ∉ (handle_player_joined s e).tr) ∧
    Op.commit ∉ (handle_player_joined s e).tr := by
  unfold handle_player_joined
  dsimp only
  repeat' split
  all_goals simp

/-- Handler traces contain neither a dedup mark nor a commit
(`handle_achievement`). -/
theorem handle_achievement_tr (s : RedisState) (e : Event) :
    (∀ j, Op.sadd j ∉ (handle_achievement s e).tr) ∧
    Op.commit ∉ (handle_achievement s e).tr := by
  unfold handle_achievement
  dsimp only
  repeat' split
  all_goals simp

/-- `handle_achievement` either leaves the feed alone (a field read
raised before the push) or pushes one record and trims, in that order. -/
theorem handle_achievement_achievements (s : RedisState) (e : Event) :
    (handle_achievement s e).st.achievements = s.achievements ∨
    ∃ r, (handle_achievement s e).st.achievements =
      (r :: s.achievements).take 100 := by
  unfold handle_achievement
  dsimp only
  repeat' split
  all_goals simp

/-- On a fully-formed achievement event the handler succeeds, the feed
becomes push-then-trim of the serialized record, and the trace is
exactly `LPUSH` followed by `LTRIM 0 99`. -/
theorem handle_achievement_apply (s : RedisState) (e : Event)
    (pn an ar ts : String) (hpn : e.player_name = some pn)
    (han : e.achievement_name = some an)
    (har : e.achievement_rarity = some ar)
    (hts : e.timestamp = some ts) :
    handle_achievement s e =
      ⟨{ s with achievements := ((⟨pn, an, ar, ts⟩ : AchRecord) ::
            s.achievements).take 100 },
       [Op.lpush ACHIEVEMENTS_KEY ⟨pn, an, ar, ts⟩,
        Op.ltrim ACHIEVEMENTS_KEY 0 99], none⟩ := by
  unfold handle_achievement
  rw [hpn, han, har, hts]
  rfl

/-! ### Lemmas about the router and `process_event` -/

/-- `route_event` either reports an unknown kind or dispatches to exactly
one of the three handlers. -/
theorem route_event_cases (s : RedisState) (e : Event) (ty : String) :
    route_event s e ty = .unknownKind ∨
    route_event s e ty = .handled (handle_player_scored s e) ∨
    route_event s e ty = .handled (handle_player_joined s e) ∨
    route_event s e ty = .handled (handle_achievement s e) := by
  unfold route_event
  repeat' split
  all_goals simp

/-- Whatever handler `route_event` dispatched to: the dedup set is
untouched and the trace contains no `SADD` and no commit. -/
theorem route_event_handled_frame (s : RedisState) (e : Event)
    (ty : String) (hr : HRes) (h : route_event s e ty = .handled hr) :
    hr.st.processed = s.processed ∧
    (∀ j, Op.sadd j ∉ hr.tr) ∧ Op.commit ∉ hr.tr := by
  rcases route_event_cases s e ty with hc | hc | hc | hc <;> rw [hc] at h
  · exact absurd h (by simp)
  · cases h
    exact ⟨(handle_player_scored_frame s e).1,
      (handle_player_scored_tr s e).1, (handle_player_scored_tr s e).2⟩
  · cases h
    exact ⟨(handle_player_joined_frame s e).1,
      (handle_player_joined_tr s e).1, (handle_player_joined_tr s e).2⟩
  · cases h
    exact ⟨(handle_achievement_frame s e).1,
      (handle_achievement_tr s e).1, (handle_achievement_tr s e).2⟩

/-- Whatever handler `route_event` dispatched to: the leaderboard score of
a player name the event is not about is untouched. -/
theorem route_event_leaderboard_frame (s : RedisState) (e : Event)
    (ty : String) (hr : HRes) (h : route_event s e ty = .handled hr)
    (m : String) (hm : e.player_name ≠ some m) :
    hr.st.leaderboard m = s.leaderboard m := by
  rcases route_event_cases s e ty with hc | hc | hc | hc <;> rw [hc] at h
  · exact absurd h (by simp)
  · cases h
    exact handle_player_scored_leaderboard_frame s e m hm
  · cases h
    rw [(handle_player_joined_frame s e).2.2]
  · cases h
    rw [(handle_achievement_frame s e).2.1]

/-- Whatever handler `route_event` dispatched to: the achievement feed is
either untouched or replaced by push-then-trim of one record. -/
theorem route_event_achievements (s : RedisState) (e : Event)
    (ty : String) (hr : HRes) (h : route_event s e ty = .handled hr) :
    hr.st.achievements = s.achievements ∨
    ∃ r, hr.st.achievements = (r :: s.achievements).take 100 := by
  rcases route_event_cases s e ty with hc | hc | hc | hc <;> rw [hc] at h
  · exact absurd h (by simp)
  · cases h
    exact Or.inl (handle_player_scored_frame s e).2
  · cases h
    exact Or.inl (handle_player_joined_frame s e).2.1
  · cases h
    exact handle_achievement_achievements s e

/-- The duplicate-skip branch of `process_event`: a marked id returns
`True` having only consulted the dedup set. -/
theorem process_event_duplicate (s : RedisState) (e : Event) (id ty : String)
    (hid : e.event_id = some id) (hty : e.event_type = some ty)
    (hid' : id ≠ "") (hty' : ty ≠ "") (h : s.processed id = true) :
    process_event s e = ⟨s, [.sismember id], true⟩ := by
  unfold process_event
  rw [hid, hty]
  dsimp only
  rw [if_neg (by simp [hid', hty']), if_pos (by simpa [is_event_processed])]

/-- The validation branch of `process_event`: a missing id or kind returns
`False` with no store interaction at all. -/
theorem process_event_invalid (s : RedisState) (e : Event)
    (h : e.event_id = none ∨ e.event_type = none) :
    process_event s e = ⟨s, [], false⟩ := by
  unfold process_event
  rcases hid : e.event_id with _ | id
  · rfl
  · rcases h with h | h
    · rw [h] at hid
      cases hid
    · rw [h]

/-- `process_event` can only ever add the event's own id to the
`processed:events` set. -/
theorem process_event_processed_subset (s : RedisState) (e : Event)
    (x : String) (h : (process_event s e).st.processed x = true) :
    s.processed x = true ∨ e.event_id = some x := by
  revert h
  unfold process_event
  rcases hid : e.event_id with _ | id
  · exact fun h => Or.inl h
  rcases hty : e.event_type with _ | ty
  · exact fun h => Or.inl h
  dsimp only
  split
  · exact fun h => Or.inl h
  split
  · exact fun h => Or.inl h
  rcases hroute : route_event s e ty with ⟨⟨st', tr', err'⟩⟩ | _
  · rcases err' with _ | err
    · unfold mark_event_processed
      dsimp only
      rw [saddS_processed]
      have hfr := (route_event_handled_frame s e ty _ hroute).1
      dsimp only at hfr
      rw [hfr]
      split
      · rename_i hx
        exact fun _ => Or.inr (congrArg some hx.symm)
      · exact fun h => Or.inl h
    · dsimp only
      have hfr := (route_event_handled_frame s e ty _ hroute).1
      dsimp only at hfr
      rw [hfr]
      exact fun h => Or.inl h
  · exact fun h => Or.inl h

/-- `process_event` never changes the leaderboard score of a player name
the event is not about, regardless of outcome. -/
theorem process_event_leaderboard_frame (s : RedisState) (e : Event)
    (m : String) (hm : e.player_name ≠ some m) :
    (process_event s e).st.leaderboard m = s.leaderboard m := by
  unfold process_event
  rcases hid : e.event_id with _ | id
  · rfl
  rcases hty : e.event_type with _ | ty
  · rfl
  dsimp only
  split
  · rfl
  split
  · rfl
  rcases hroute : route_event s e ty with ⟨⟨st', tr', err'⟩⟩ | _
  · have hl := route_event_leaderboard_frame s e ty _ hroute m hm
    dsimp only at hl
    rcases err' with _ | err
    · simp only [mark_event_processed, saddS_leaderboard]
      exact hl
    · exact hl
  · rfl

/-- Applying a fresh, fully-identified scored event adds its points to the
player's leaderboard score (the `ZINCRBY` has happened even if the handler
later raises on a missing `timestamp`). -/
theorem process_event_scored_apply (s : RedisState) (e : Event)
    (id pid pn : String) (p : Int)
    (hid : e.event_id = some id) (hne : id ≠ "")
    (hty : e.event_type = some "player_scored")
    (hpid : e.player_id = some pid) (hpn : e.player_name = some pn)
    (hp : e.points = some p) (hfresh : s.processed id = false) :
    (process_event s e).st.leaderboard pn =
      some ((s.leaderboard pn).getD 0 + p) := by
  unfold process_event
  rw [hid, hty]
  dsimp only
  rw [if_neg (by simp [hne]), if_neg (by simp [is_event_processed, hfresh])]
  unfold route_event
  rw [if_pos rfl]
  have hl := handle_player_scored_leaderboard s e pid pn p hpid hpn hp pn
  rw [if_pos rfl] at hl
  rcases hh : handle_player_scored s e with ⟨st', tr', err'⟩
  rw [hh] at hl
  dsimp only at hl
  rcases err' with _ | err
  · simp only [mark_event_processed, saddS_leaderboard]
    exact hl
  · exact hl

/-- Applying a fresh, fully-formed achievement event succeeds, pushes its
record onto the feed and trims the feed to 100. -/
theorem process_event_achievement_apply (s : RedisState) (e : Event)
    (id pn an ar ts : String)
    (hid : e.event_id = some id) (hne : id ≠ "")
    (hty : e.event_type = some "achievement_unlocked")
    (hpn : e.player_name = some pn) (han : e.achievement_name = some an)
    (har : e.achievement_rarity = some ar) (hts : e.timestamp = some ts)
    (hfresh : s.processed id = false) :
    (process_event s e).st.achievements =
      ((⟨pn, an, ar, ts⟩ : AchRecord) :: s.achievements).take 100 ∧
    (process_event s e).ok = true := by
  unfold process_event
  rw [hid, hty]
  dsimp only
  rw [if_neg (by simp [hne]), if_neg (by simp [is_event_processed, hfresh])]
  unfold route_event
  rw [if_neg (by decide), if_neg (by decide), if_pos rfl,
    handle_achievement_apply s e pn an ar ts hpn han har hts]
  exact ⟨rfl, rfl⟩

/-- `process_event` either leaves the achievement feed alone or replaces
it by push-then-trim of one record. -/
theorem process_event_achievements_cases (s : RedisState) (e : Event) :
    (process_event s e).st.achievements = s.achievements ∨
    ∃ r, (process_event s e).st.achievements =
      (r :: s.achievements).take 100 := by
  unfold process_event
  rcases hid : e.event_id with _ | id
  · exact Or.inl rfl
  rcases hty : e.event_type with _ | ty
  · exact Or.inl rfl
  dsimp only
  split
  · exact Or.inl rfl
  split
  · exact Or.inl rfl
  rcases hroute : route_event s e ty with ⟨⟨st', tr', err'⟩⟩ | _
  · have ha := route_event_achievements s e ty _ hroute
    dsimp only at ha
    rcases err' with _ | err
    · simpa only [mark_event_processed, saddS_achievements] using ha
    · exact ha
  · exact Or.inl rfl

/-- `process_event` never emits an offset commit: committing belongs to
the ingestion loop alone. -/
theorem process_event_no_commit (s : RedisState) (e : Event) :
    Op.commit ∉ (process_event s e).tr := by
  unfold process_event
  rcases hid : e.event_id with _ | id
  · simp
  rcases hty : e.event_type with _ | ty
  · simp
  dsimp only
  split
  · simp
  split
  · simp
  rcases hroute : route_event s e ty with ⟨⟨st', tr', err'⟩⟩ | _
  · have hno := (route_event_handled_frame s e ty _ hroute).2.2
    dsimp only at hno
    rcases err' with _ | err <;> simp [hno]
  · simp

/-- Iterating one partition's messages never emits a commit. -/
theorem process_messages_no_commit (s : RedisState) (msgs : List Event) :
    Op.commit ∉ (process_messages s msgs).2 := by
  suffices h : ∀ (acc : List Op), Op.commit ∉ acc →
      Op.commit ∉ (msgs.foldl
        (fun (p : RedisState × List Op) e =>
          let r := process_event p.1 e
          (r.st, p.2 ++ r.tr)) (s, acc)).2 by
    exact h [] (by simp)
  induction msgs generalizing s with
  | nil => exact fun acc hacc => hacc
  | cons e rest ih =>
    intro acc hacc
    exact ih (process_event s e).st _ (by
      simp only [List.mem_append]
      rintro (h | h)
      · exact hacc h
      · exact process_event_no_commit s e h)

/-- The `Processing` stage of a poll cycle never emits a commit. -/
theorem process_batch_no_commit (s : RedisState)
    (batch : List (List Event)) :
    Op.commit ∉ (process_batch s batch).2 := by
  unfold process_batch
  suffices h : ∀ (acc : List Op), Op.commit ∉ acc →
      Op.commit ∉ (batch.foldl
        (fun (p : RedisState × List Op) msgs =>
          let q := process_messages p.1 msgs
          (q.1, p.2 ++ q.2)) (s, acc)).2 by
    exact h [] (by simp)
  induction batch generalizing s with
  | nil => exact fun acc hacc => hacc
  | cons msgs rest ih =>
    intro acc hacc
    exact ih (process_messages s msgs).1 _ (by
      simp only [List.mem_append]
      rintro (h | h)
      · exact hacc h
      · exact process_messages_no_commit s msgs h)

/-- With the store down, the batch iteration raises exactly when some
event of the batch reaches the dedup check. -/
theorem batch_store_down_iff (batch : List (List Event)) :
    batch_store_down batch = true ↔
    ∃ e ∈ batch.flatten, process_event_store_down e = true := by
  induction batch with
  | nil => simp [batch_store_down]
  | cons msgs rest ih =>
    unfold batch_store_down
    have hmsgs : ∀ (l : List Event), messages_store_down l = true ↔
        ∃ e ∈ l, process_event_store_down e = true := by
      intro l
      induction l with
      | nil => simp [messages_store_down]
      | cons e tl ihl =>
        unfold messages_store_down
        by_cases he : process_event_store_down e = true
        · simp [he]
        · simp only [if_neg he, ihl, List.mem_cons]
          constructor
          · rintro ⟨x, hx, hx'⟩
            exact ⟨x, Or.inr hx, hx'⟩
          · rintro ⟨x, hx | hx, hx'⟩
            · exact absurd (hx ▸ hx') he
            · exact ⟨x, hx, hx'⟩
    by_cases hm : messages_store_down msgs = true
    · simp only [if_pos hm, List.flatten_cons]
      rcases (hmsgs msgs).mp hm with ⟨e, he, he'⟩
      simp only [true_iff]
      exact ⟨e, List.mem_append_left _ he, he'⟩
    · simp only [if_neg hm, ih, List.flatten_cons]
      constructor
      · rintro ⟨e, he, he'⟩
        exact ⟨e, List.mem_append_right _ he, he'⟩
      · rintro ⟨e, he, he'⟩
        rcases List.mem_append.mp he with h | h
        · exact absurd ((hmsgs msgs).mpr ⟨e, h, he'⟩) hm
        · exact ⟨e, h, he'⟩

/-- Reading another field of a hash is unaffected by `HSET`. -/
theorem hsetS_hashes_ne (s : RedisState) (k f : String) (v : RVal)
    (k' f' : String) (h : ¬(k' = k ∧ f' = f)) :
    (s.hsetS k f v).hashes k' f' = s.hashes k' f' := by
  rw [hsetS_hashes, if_neg h]

/-- `HSET` stores the value at its own field. -/
theorem hsetS_hashes_eq (s : RedisState) (k f : String) (v : RVal) :
    (s.hsetS k f v).hashes k f = some v := by
  rw [hsetS_hashes, if_pos ⟨rfl, rfl⟩]

/-- Reading another field of a hash is unaffected by `HSETNX`. -/
theorem hsetnxS_hashes_ne (s : RedisState) (k f : String) (v : RVal)
    (k' f' : String) (h : ¬(k' = k ∧ f' = f)) :
    (s.hsetnxS k f v).hashes k' f' = s.hashes k' f' := by
  unfold RedisState.hsetnxS
  dsimp only
  rw [if_neg h]

/-- `hashInt` only depends on the field's stored value. -/
theorem hashInt_congr (s s' : RedisState) (k f : String)
    (h : s'.hashes k f = s.hashes k f) :
    hashInt s' k f = hashInt s k f := by
  unfold hashInt
  rw [h]

/-! ### Concrete events used in scenarios and witnesses -/

/-- The event `Scored{id=e1, points=100}` of the replay scenario. -/
def scenario_e1 : Event :=
  { event_id := some "e1", event_type := some "player_scored",
    player_id := some "p1", player_name := some "P",
    points := some 100, action := some "kill", timestamp := some "t1" }

/-- The event `Scored{id=e2, points=50}` of the replay scenario. -/
def scenario_e2 : Event :=
  { scenario_e1 with event_id := some "e2", points := some 50 }

/-- State after applying `scenario_e1` to an empty store. -/
def scenario_s1 : RedisState := (process_event RedisState.empty scenario_e1).st

/-- State after additionally applying `scenario_e2`. -/
def scenario_s2 : RedisState := (process_event scenario_s1 scenario_e2).st

/-- A fully-formed `player_scored` event used as a concrete input. -/
def sample_scored_event : Event :=
  { event_id := some "evt-1", event_type := some "player_scored",
    player_id := some "p9", player_name := some "Alice",
    points := some 10, action := some "kill", timestamp := some "t9" }

/-! ### The claims -/

/-- C1: for a player with no prior record, applying
`Scored{id=e1, points=100}` then `Scored{id=e2, points=50}` and then
replaying `e1` (its dedup entry still present) leaves the final
leaderboard score at 150 (not 250) and `events_count` at 2:
`process_event` skips the replayed event, returning success and changing
no state at all. -/
theorem claim_C1_replay_scenario :
    scenario_s2.leaderboard "P" = some 150 ∧
    scenario_s2.hashes (PLAYER_STATS_PREFIX ++ "p1") "events_count" =
      some (.int 2) ∧
    scenario_s2.processed "e1" = true ∧
    (process_event scenario_s2 scenario_e1).ok = true ∧
    (process_event scenario_s2 scenario_e1).st = scenario_s2 ∧
    (process_event scenario_s2 scenario_e1).st.leaderboard "P" =
      some 150 ∧
    (process_event scenario_s2 scenario_e1).st.hashes
      (PLAYER_STATS_PREFIX ++ "p1") "events_count" = some (.int 2) :=
  ⟨by decide, by decide, by decide, by decide, rfl, by decide, by decide⟩

/-- C5: an event lacking its `event_id` or its `event_type` makes
`process_event` return the validation failure `False` without raising,
with an empty trace — so no dedup-ledger lookup, no handler call — and
with the state untouched. -/
theorem claim_C5_validation_first (s : RedisState) (e : Event)
    (h : e.event_id = none ∨ e.event_type = none) :
    process_event s e = ⟨s, [], false⟩ :=
  process_event_invalid s e h

/-- Witness for C5 at a concrete input: an event with a kind but no id. -/
theorem claim_C5_witness :
    process_event RedisState.empty { event_type := some "player_scored" } =
      ⟨RedisState.empty, [], false⟩ :=
  claim_C5_validation_first RedisState.empty _ (Or.inl rfl)

/-- C9: an event whose id is already in the `processed:events` set makes
`process_event` return success while touching nothing: the state (the
leaderboard, every stats hash, the feed and the processed set itself) is
exactly the input state, and the trace shows only the dedup lookup — no
handler ran. -/
theorem claim_C9_duplicate_noop (s : RedisState) (e : Event)
    (id ty : String) (hid : e.event_id = some id) (hne : id ≠ "")
    (hty : e.event_type = some ty) (htyne : ty ≠ "")
    (hdup : s.processed id = true) :
    (process_event s e).ok = true ∧ (process_event s e).st = s ∧
    (process_event s e).tr = [Op.sismember id] := by
  rw [process_event_duplicate s e id ty hid hty hne htyne hdup]
  exact ⟨rfl, rfl, rfl⟩

/-- Witness for C9 at a concrete input: a marked id is skipped even for
an event whose kind no handler knows. -/
theorem claim_C9_witness :
    (process_event (RedisState.empty.saddS "e1")
        { event_id := some "e1", event_type := some "bogus" }).ok = true ∧
    (process_event (RedisState.empty.saddS "e1")
        { event_id := some "e1", event_type := some "bogus" }).st =
      RedisState.empty.saddS "e1" ∧
    (process_event (RedisState.empty.saddS "e1")
        { event_id := some "e1", event_type := some "bogus" }).tr =
      [Op.sismember "e1"] :=
  claim_C9_duplicate_noop _ _ "e1" "bogus" rfl (by decide) rfl (by decide)
    (by decide)

/-- C7: in every poll cycle the offset commit is emitted exactly once, as
the last operation, after the traces of every event of every partition of
the batch; the processing stage never emits a commit of its own, and the
commit happens regardless of how many events of the batch failed. -/
theorem claim_C7_commit_after_full_batch (s : RedisState)
    (batch : List (List Event)) :
    (poll_cycle s batch).2 = (process_batch s batch).2 ++ [Op.commit] ∧
    Op.commit ∉ (process_batch s batch).2 ∧
    (poll_cycle s batch).2.getLast? = some Op.commit := by
  refine ⟨rfl, process_batch_no_commit s batch, ?_⟩
  show ((process_batch s batch).2 ++ [Op.commit]).getLast? = some Op.commit
  simp

/-- C8 counterexample: with the aggregate store unreachable during a poll
cycle after startup, a batch holding one well-formed event makes the
ingestion loop terminate (the connection error escapes `process_event`,
is logged as fatal and re-raised) — it does not back off, retry, or
commit, contradicting the claimed retry behavior. -/
theorem claim_C8_counterexample :
    poll_cycle_store_down [[sample_scored_event]] = .terminated := by
  decide

/-- C8 (amended): the ingestion loop never terminates because of a single
bad event — with the store reachable every poll cycle still commits the
batch — but a store failure during a poll cycle terminates the processor
(the exception is re-raised) whenever any event of the batch reaches the
dedup check; the loop does not back off and retry. -/
theorem claim_C8_amended_behavior :
    (∀ batch : List (List Event),
      (∃ e ∈ batch.flatten, process_event_store_down e = true) →
      poll_cycle_store_down batch = .terminated) ∧
    (∀ (s : RedisState) (batch : List (List Event)),
      Op.commit ∈ (poll_cycle s batch).2) := by
  constructor
  · intro batch h
    unfold poll_cycle_store_down
    rw [if_pos ((batch_store_down_iff batch).mpr h)]
  · intro s batch
    show Op.commit ∈ (process_batch s batch).2 ++ [Op.commit]
    simp

/-- Witness for the amended C8 at a concrete input. -/
theorem claim_C8_witness :
    poll_cycle_store_down [[sample_scored_event]] = CycleOutcome.terminated ∧
    Op.commit ∈ (poll_cycle RedisState.empty [[sample_scored_event]]).2 :=
  ⟨claim_C8_amended_behavior.1 _ ⟨sample_scored_event, by decide, by decide⟩,
   claim_C8_amended_behavior.2 RedisState.empty _⟩

/-- C2: mutate-then-mark.  A dedup mark (`SADD` of the event id) appears
in a `process_event` trace only as the final operation, directly after
the complete trace of the handler the event was routed to, and only when
that handler ran to completion without an error; and an execution that
returns failure (invalid event, unknown kind, or handler error) never
contains a mark. -/
theorem claim_C2_mutate_then_mark :
    (∀ (s : RedisState) (e : Event) (id : String),
      Op.sadd id ∈ (process_event s e).tr →
      e.event_id = some id ∧ (process_event s e).ok = true ∧
      ∃ ty hr, e.event_type = some ty ∧
        route_event s e ty = .handled hr ∧ hr.err = none ∧
        (∀ j, Op.sadd j ∉ hr.tr) ∧
        (process_event s e).tr = .sismember id :: (hr.tr ++ [.sadd id]) ∧
        (process_event s e).st = mark_event_processed hr.st id) ∧
    (∀ (s : RedisState) (e : Event), (process_event s e).ok = false →
      ∀ id, Op.sadd id ∉ (process_event s e).tr) := by
  constructor
  · intro s e id
    unfold process_event
    rcases hid : e.event_id with _ | eid
    · intro hmem
      simp at hmem
    rcases hty : e.event_type with _ | ty
    · intro hmem
      simp at hmem
    dsimp only
    split
    · intro hmem
      simp at hmem
    split
    · intro hmem
      simp at hmem
    rcases hroute : route_event s e ty with ⟨⟨st', tr', err'⟩⟩ | _
    · have hno := (route_event_handled_frame s e ty _ hroute).2.1
      dsimp only at hno
      rcases err' with _ | err
      · intro hmem
        dsimp only at hmem ⊢
        have hid_eq : id = eid := by
          rcases List.mem_cons.mp hmem with h | h
          · cases h
          · rcases List.mem_append.mp h with h | h
            · exact absurd h (hno id)
            · simpa using h
        subst hid_eq
        exact ⟨rfl, rfl, ty, ⟨st', tr', none⟩, rfl, hroute, rfl, hno,
          rfl, rfl⟩
      · intro hmem
        exfalso
        dsimp only at hmem
        rcases List.mem_cons.mp hmem with h | h
        · cases h
        · exact hno id h
    · intro hmem
      simp at hmem
  · intro s e
    unfold process_event
    rcases hid : e.event_id with _ | eid
    · intro _ id
      simp
    rcases hty : e.event_type with _ | ty
    · intro _ id
      simp
    dsimp only
    split
    · intro _ id
      simp
    split
    · intro hok
      cases hok
    rcases hroute : route_event s e ty with ⟨⟨st', tr', err'⟩⟩ | _
    · have hno := (route_event_handled_frame s e ty _ hroute).2.1
      dsimp only at hno
      rcases err' with _ | err
      · intro hok
        cases hok
      · intro _ id
        dsimp only
        intro hmem
        rcases List.mem_cons.mp hmem with h | h
        · cases h
        · exact hno id h
    · intro _ id
      simp


/-- Witness for C2 at a concrete input: a fresh well-formed scored event
is marked, after the handler's complete trace. -/
theorem claim_C2_witness :
    sample_scored_event.event_id = some "evt-1" ∧
    (process_event RedisState.empty sample_scored_event).ok = true ∧
    ∃ ty hr, sample_scored_event.event_type = some ty ∧
      route_event RedisState.empty sample_scored_event ty = .handled hr ∧
      hr.err = none ∧ (∀ j, Op.sadd j ∉ hr.tr) ∧
      (process_event RedisState.empty sample_scored_event).tr =
        .sismember "evt-1" :: (hr.tr ++ [.sadd "evt-1"]) ∧
      (process_event RedisState.empty sample_scored_event).st =
        mark_event_processed hr.st "evt-1" :=
  claim_C2_mutate_then_mark.1 RedisState.empty sample_scored_event "evt-1"
    (by decide)

/-- On a fully-identified join event whose `games_joined` field does not
hold a non-integer string, `handle_player_joined` runs to completion:
`HSETNX total_score 0`, `HSET player_name`, `HINCRBY games_joined 1`,
`HSET last_game`. -/
theorem handle_player_joined_apply (s : RedisState) (e : Event)
    (pid pn gid : String) (hpid : e.player_id = some pid)
    (hpn : e.player_name = some pn) (hgid : e.game_id = some gid)
    (hok : s.hashes (PLAYER_STATS_PREFIX ++ pid) "games_joined" = none ∨
      ∃ n, s.hashes (PLAYER_STATS_PREFIX ++ pid) "games_joined" =
        some (.int n)) :
    handle_player_joined s e =
      ⟨(((s.hsetnxS (PLAYER_STATS_PREFIX ++ pid) "total_score"
            (.int 0)).hsetS
            (PLAYER_STATS_PREFIX ++ pid) "player_name" (.str pn)).hsetS
            (PLAYER_STATS_PREFIX ++ pid) "games_joined"
            (.int (hashInt s (PLAYER_STATS_PREFIX ++ pid) "games_joined"
              + 1))).hsetS
            (PLAYER_STATS_PREFIX ++ pid) "last_game" (.str gid),
       [Op.hsetnx (PLAYER_STATS_PREFIX ++ pid) "total_score" (.int 0),
        Op.hset (PLAYER_STATS_PREFIX ++ pid) "player_name" (.str pn),
        Op.hincrby (PLAYER_STATS_PREFIX ++ pid) "games_joined" 1,
        Op.hset (PLAYER_STATS_PREFIX ++ pid) "last_game" (.str gid)],
       none⟩ := by
  unfold handle_player_joined
  rw [hpid, hpn, hgid]
  dsimp only
  have h2 : ((s.hsetnxS (PLAYER_STATS_PREFIX ++ pid) "total_score"
      (.int 0)).hsetS
      (PLAYER_STATS_PREFIX ++ pid) "player_name" (.str pn)).hashes
      (PLAYER_STATS_PREFIX ++ pid) "games_joined" =
      s.hashes (PLAYER_STATS_PREFIX ++ pid) "games_joined" := by
    rw [hsetS_hashes_ne _ _ _ _ _ _ (by simp),
      hsetnxS_hashes_ne _ _ _ _ _ _ (by simp)]
  rw [hincrbyVal_eq_of_ok _ _ _ _ (by rw [h2]; exact hok),
    hashInt_congr s _ _ _ h2]
  rfl

/-- C6: a Joined event initializes `total_score` to 0 only when the field
is absent and never overwrites an existing value; it still sets
`player_name` and `last_game` and increments `games_joined`. -/
theorem claim_C6_join_preserves_total_score (s : RedisState) (e : Event)
    (id pid pn gid : String)
    (hid : e.event_id = some id) (hne : id ≠ "")
    (hty : e.event_type = some "player_joined")
    (hpid : e.player_id = some pid) (hpn : e.player_name = some pn)
    (hgid : e.game_id = some gid)
    (hfresh : s.processed id = false)
    (hgj : s.hashes (PLAYER_STATS_PREFIX ++ pid) "games_joined" = none ∨
      ∃ n, s.hashes (PLAYER_STATS_PREFIX ++ pid) "games_joined" =
        some (.int n)) :
    (∀ v, s.hashes (PLAYER_STATS_PREFIX ++ pid) "total_score" = some v →
      (process_event s e).st.hashes (PLAYER_STATS_PREFIX ++ pid)
        "total_score" = some v) ∧
    (s.hashes (PLAYER_STATS_PREFIX ++ pid) "total_score" = none →
      (process_event s e).st.hashes (PLAYER_STATS_PREFIX ++ pid)
        "total_score" = some (.int 0)) ∧
    (process_event s e).st.hashes (PLAYER_STATS_PREFIX ++ pid)
      "player_name" = some (.str pn) ∧
    (process_event s e).st.hashes (PLAYER_STATS_PREFIX ++ pid)
      "last_game" = some (.str gid) ∧
    (process_event s e).st.hashes (PLAYER_STATS_PREFIX ++ pid)
      "games_joined" =
      some (.int (hashInt s (PLAYER_STATS_PREFIX ++ pid) "games_joined"
        + 1)) := by
  unfold process_event
  rw [hid, hty]
  dsimp only
  rw [if_neg (by simp [hne]), if_neg (by simp [is_event_processed, hfresh])]
  unfold route_event
  rw [if_neg (by decide), if_pos rfl,
    handle_player_joined_apply s e pid pn gid hpid hpn hgid hgj]
  dsimp only
  simp only [mark_event_processed, saddS_hashes]
  refine ⟨?_, ?_, ?_, ?_, ?_⟩
  · intro v hv
    rw [hsetS_hashes_ne _ _ _ _ _ _ (by simp),
      hsetS_hashes_ne _ _ _ _ _ _ (by simp),
      hsetS_hashes_ne _ _ _ _ _ _ (by simp),
      hsetnxS_hashes_of_present _ _ _ _ v hv, if_pos ⟨rfl, rfl⟩]
  · intro hv
    rw [hsetS_hashes_ne _ _ _ _ _ _ (by simp),
      hsetS_hashes_ne _ _ _ _ _ _ (by simp),
      hsetS_hashes_ne _ _ _ _ _ _ (by simp),
      hsetnxS_hashes_of_absent _ _ _ _ hv, if_pos ⟨rfl, rfl⟩]
  · rw [hsetS_hashes_ne _ _ _ _ _ _ (by simp),
      hsetS_hashes_ne _ _ _ _ _ _ (by simp), hsetS_hashes_eq]
  · rw [hsetS_hashes_eq]
  · rw [hsetS_hashes_ne _ _ _ _ _ _ (by simp), hsetS_hashes_eq]

/-- The concrete join event used in the C6 witness. -/
def join_event : Event :=
  { event_id := some "evt-2", event_type := some "player_joined",
    player_id := some "p9", player_name := some "Alice",
    game_id := some "game_alpha" }

/-- Witness for C6 at a concrete input: after `sample_scored_event` set
`total_score` to 10, a join for the same player keeps it at 10 and counts
the join. -/
theorem claim_C6_witness :
    (process_event (process_event RedisState.empty sample_scored_event).st
        join_event).st.hashes (PLAYER_STATS_PREFIX ++ "p9") "total_score" =
      some (.int 10) ∧
    (process_event (process_event RedisState.empty sample_scored_event).st
        join_event).st.hashes (PLAYER_STATS_PREFIX ++ "p9") "games_joined" =
      some (.int 1) := by
  refine ⟨(claim_C6_join_preserves_total_score _ join_event "evt-2" "p9"
      "Alice" "game_alpha" rfl (by decide) rfl rfl rfl rfl (by decide)
      (Or.inl (by decide))).1 (.int 10) (by decide), ?_⟩
  have h := (claim_C6_join_preserves_total_score
      (process_event RedisState.empty sample_scored_event).st join_event
      "evt-2" "p9" "Alice" "game_alpha" rfl (by decide) rfl rfl rfl rfl
      (by decide) (Or.inl (by decide))).2.2.2.2
  rwa [show hashInt (process_event RedisState.empty sample_scored_event).st
      (PLAYER_STATS_PREFIX ++ "p9") "games_joined" + 1 = 1 by decide] at h

/-- A per-action counter field (prefixed with `action:`) never collides
with a stats field whose name does not start with `a`. -/
theorem action_field_ne (a t : String) (h : t.data.head? ≠ some 'a') :
    "action:" ++ a ≠ t := by
  intro heq
  apply h
  rw [← heq]
  simp [String.data_append]

/-- `handle_player_scored` on an event missing only its `timestamp`: the
`ZINCRBY`, the three `HINCRBY`s and `HSET player_name` have all executed
when the `KeyError` for `timestamp` is raised; `HSET last_active` and the
rank read never run. -/
theorem handle_player_scored_missing_ts (s : RedisState) (e : Event)
    (pid pn : String) (p : Int)
    (hpid : e.player_id = some pid) (hpn : e.player_name = some pn)
    (hp : e.points = some p) (hts : e.timestamp = none)
    (h1 : s.hashes (PLAYER_STATS_PREFIX ++ pid) "total_score" = none ∨
      ∃ n, s.hashes (PLAYER_STATS_PREFIX ++ pid) "total_score" =
        some (.int n))
    (h2 : s.hashes (PLAYER_STATS_PREFIX ++ pid) "events_count" = none ∨
      ∃ n, s.hashes (PLAYER_STATS_PREFIX ++ pid) "events_count" =
        some (.int n))
    (h3 : s.hashes (PLAYER_STATS_PREFIX ++ pid)
        ("action:" ++ e.action.getD "unknown") = none ∨
      ∃ n, s.hashes (PLAYER_STATS_PREFIX ++ pid)
        ("action:" ++ e.action.getD "unknown") = some (.int n)) :
    handle_player_scored s e =
      ⟨((((s.zincrbyS pn p).hsetS (PLAYER_STATS_PREFIX ++ pid)
            "total_score"
            (.int (hashInt s (PLAYER_STATS_PREFIX ++ pid) "total_score"
              + p))).hsetS
            (PLAYER_STATS_PREFIX ++ pid) "events_count"
            (.int (hashInt s (PLAYER_STATS_PREFIX ++ pid) "events_count"
              + 1))).hsetS
            (PLAYER_STATS_PREFIX ++ pid)
            ("action:" ++ e.action.getD "unknown")
            (.int (hashInt s (PLAYER_STATS_PREFIX ++ pid)
              ("action:" ++ e.action.getD "unknown") + 1))).hsetS
            (PLAYER_STATS_PREFIX ++ pid) "player_name" (.str pn),
       [Op.zincrby pn p,
        Op.hincrby (PLAYER_STATS_PREFIX ++ pid) "total_score" p,
        Op.hincrby (PLAYER_STATS_PREFIX ++ pid) "events_count" 1,
        Op.hincrby (PLAYER_STATS_PREFIX ++ pid)
          ("action:" ++ e.action.getD "unknown") 1,
        Op.hset (PLAYER_STATS_PREFIX ++ pid) "player_name" (.str pn)],
       some (.keyError "timestamp")⟩ := by
  unfold handle_player_scored
  rw [hpid, hpn, hp]
  dsimp only
  have e1 : (s.zincrbyS pn p).hashes (PLAYER_STATS_PREFIX ++ pid)
      "total_score" = s.hashes (PLAYER_STATS_PREFIX ++ pid)
      "total_score" := by
    rw [zincrbyS_hashes]
  rw [hincrbyVal_eq_of_ok _ _ _ _ (by rw [e1]; exact h1),
    hashInt_congr s _ _ _ e1]
  dsimp only
  have e2 : ((s.zincrbyS pn p).hsetS (PLAYER_STATS_PREFIX ++ pid)
      "total_score"
      (.int (hashInt s (PLAYER_STATS_PREFIX ++ pid) "total_score"
        + p))).hashes
      (PLAYER_STATS_PREFIX ++ pid) "events_count" =
      s.hashes (PLAYER_STATS_PREFIX ++ pid) "events_count" := by
    rw [hsetS_hashes_ne _ _ _ _ _ _ (by simp), zincrbyS_hashes]
  rw [hincrbyVal_eq_of_ok _ _ _ _ (by rw [e2]; exact h2),
    hashInt_congr s _ _ _ e2]
  dsimp only
  have e3 : (((s.zincrbyS pn p).hsetS (PLAYER_STATS_PREFIX ++ pid)
      "total_score"
      (.int (hashInt s (PLAYER_STATS_PREFIX ++ pid) "total_score"
        + p))).hsetS
      (PLAYER_STATS_PREFIX ++ pid) "events_count"
      (.int (hashInt s (PLAYER_STATS_PREFIX ++ pid) "events_count"
        + 1))).hashes
      (PLAYER_STATS_PREFIX ++ pid) ("action:" ++ e.action.getD "unknown") =
      s.hashes (PLAYER_STATS_PREFIX ++ pid)
        ("action:" ++ e.action.getD "unknown") := by
    rw [hsetS_hashes_ne _ _ _ _ _ _ (by
        rintro ⟨-, hf⟩
        exact action_field_ne _ _ (by decide) hf),
      hsetS_hashes_ne _ _ _ _ _ _ (by
        rintro ⟨-, hf⟩
        exact action_field_ne _ _ (by decide) hf),
      zincrbyS_hashes]
  rw [hincrbyVal_eq_of_ok _ _ _ _ (by rw [e3]; exact h3),
    hashInt_congr s _ _ _ e3]
  dsimp only
  rw [hts]
  rfl

/-- A field holding `.int n` has `hashInt` value `n`. -/
theorem hashInt_of_eq (s : RedisState) (k f : String) (n : Int)
    (h : s.hashes k f = some (.int n)) : hashInt s k f = n := by
  unfold hashInt
  rw [h]

/-- `process_event` on a fresh scored event missing only its `timestamp`:
the handler's `KeyError` is caught, `False` is returned and no mark is
written — but the partially-mutated state is kept. -/
theorem process_event_scored_missing_ts (s : RedisState) (e : Event)
    (id pid pn : String) (p : Int)
    (hid : e.event_id = some id) (hne : id ≠ "")
    (hty : e.event_type = some "player_scored")
    (hpid : e.player_id = some pid) (hpn : e.player_name = some pn)
    (hp : e.points = some p) (hts : e.timestamp = none)
    (hfresh : s.processed id = false)
    (h1 : s.hashes (PLAYER_STATS_PREFIX ++ pid) "total_score" = none ∨
      ∃ n, s.hashes (PLAYER_STATS_PREFIX ++ pid) "total_score" =
        some (.int n))
    (h2 : s.hashes (PLAYER_STATS_PREFIX ++ pid) "events_count" = none ∨
      ∃ n, s.hashes (PLAYER_STATS_PREFIX ++ pid) "events_count" =
        some (.int n))
    (h3 : s.hashes (PLAYER_STATS_PREFIX ++ pid)
        ("action:" ++ e.action.getD "unknown") = none ∨
      ∃ n, s.hashes (PLAYER_STATS_PREFIX ++ pid)
        ("action:" ++ e.action.getD "unknown") = some (.int n)) :
    process_event s e =
      ⟨((((s.zincrbyS pn p).hsetS (PLAYER_STATS_PREFIX ++ pid)
            "total_score"
            (.int (hashInt s (PLAYER_STATS_PREFIX ++ pid) "total_score"
              + p))).hsetS
            (PLAYER_STATS_PREFIX ++ pid) "events_count"
            (.int (hashInt s (PLAYER_STATS_PREFIX ++ pid) "events_count"
              + 1))).hsetS
            (PLAYER_STATS_PREFIX ++ pid)
            ("action:" ++ e.action.getD "unknown")
            (.int (hashInt s (PLAYER_STATS_PREFIX ++ pid)
              ("action:" ++ e.action.getD "unknown") + 1))).hsetS
            (PLAYER_STATS_PREFIX ++ pid) "player_name" (.str pn),
       Op.sismember id ::
        [Op.zincrby pn p,
         Op.hincrby (PLAYER_STATS_PREFIX ++ pid) "total_score" p,
         Op.hincrby (PLAYER_STATS_PREFIX ++ pid) "events_count" 1,
         Op.hincrby (PLAYER_STATS_PREFIX ++ pid)
           ("action:" ++ e.action.getD "unknown") 1,
         Op.hset (PLAYER_STATS_PREFIX ++ pid) "player_name" (.str pn)],
       false⟩ := by
  unfold process_event
  rw [hid, hty]
  dsimp only
  rw [if_neg (by simp [hne]), if_neg (by simp [is_event_processed, hfresh])]
  unfold route_event
  rw [if_pos rfl, handle_player_scored_missing_ts s e pid pn p hpid hpn hp
    hts h1 h2 h3]

/-- C10: state is not unchanged on a handler error.  For a fresh
`player_scored` event carrying `event_id`, `event_type`, `player_id`,
`player_name` and `points` but lacking `timestamp`, `process_event`
returns failure and writes no dedup mark, yet the leaderboard score,
`total_score`, `events_count`, the per-action counter and `player_name`
have already been mutated when the `KeyError` is raised (`last_active` is
not); redelivering the same event therefore applies every one of those
increments a second time. -/
theorem claim_C10_partial_mutation_missing_timestamp (s : RedisState)
    (e : Event) (id pid pn : String) (p : Int)
    (hid : e.event_id = some id) (hne : id ≠ "")
    (hty : e.event_type = some "player_scored")
    (hpid : e.player_id = some pid) (hpn : e.player_name = some pn)
    (hp : e.points = some p) (hts : e.timestamp = none)
    (hfresh : s.processed id = false)
    (h1 : s.hashes (PLAYER_STATS_PREFIX ++ pid) "total_score" = none ∨
      ∃ n, s.hashes (PLAYER_STATS_PREFIX ++ pid) "total_score" =
        some (.int n))
    (h2 : s.hashes (PLAYER_STATS_PREFIX ++ pid) "events_count" = none ∨
      ∃ n, s.hashes (PLAYER_STATS_PREFIX ++ pid) "events_count" =
        some (.int n))
    (h3 : s.hashes (PLAYER_STATS_PREFIX ++ pid)
        ("action:" ++ e.action.getD "unknown") = none ∨
      ∃ n, s.hashes (PLAYER_STATS_PREFIX ++ pid)
        ("action:" ++ e.action.getD "unknown") = some (.int n)) :
    (process_event s e).ok = false ∧
    (process_event s e).st.processed = s.processed ∧
    (process_event s e).st.leaderboard pn =
      some ((s.leaderboard pn).getD 0 + p) ∧
    (process_event s e).st.hashes (PLAYER_STATS_PREFIX ++ pid)
      "total_score" =
      some (.int (hashInt s (PLAYER_STATS_PREFIX ++ pid) "total_score"
        + p)) ∧
    (process_event s e).st.hashes (PLAYER_STATS_PREFIX ++ pid)
      "events_count" =
      some (.int (hashInt s (PLAYER_STATS_PREFIX ++ pid) "events_count"
        + 1)) ∧
    (process_event s e).st.hashes (PLAYER_STATS_PREFIX ++ pid)
      ("action:" ++ e.action.getD "unknown") =
      some (.int (hashInt s (PLAYER_STATS_PREFIX ++ pid)
        ("action:" ++ e.action.getD "unknown") + 1)) ∧
    (process_event s e).st.hashes (PLAYER_STATS_PREFIX ++ pid)
      "player_name" = some (.str pn) ∧
    (process_event s e).st.hashes (PLAYER_STATS_PREFIX ++ pid)
      "last_active" =
      s.hashes (PLAYER_STATS_PREFIX ++ pid) "last_active" ∧
    (process_event (process_event s e).st e).st.leaderboard pn =
      some ((s.leaderboard pn).getD 0 + p + p) ∧
    (process_event (process_event s e).st e).st.hashes
      (PLAYER_STATS_PREFIX ++ pid) "total_score" =
      some (.int (hashInt s (PLAYER_STATS_PREFIX ++ pid) "total_score"
        + p + p)) ∧
    (process_event (process_event s e).st e).st.hashes
      (PLAYER_STATS_PREFIX ++ pid) "events_count" =
      some (.int (hashInt s (PLAYER_STATS_PREFIX ++ pid) "events_count"
        + 1 + 1)) ∧
    (process_event (process_event s e).st e).st.hashes
      (PLAYER_STATS_PREFIX ++ pid)
      ("action:" ++ e.action.getD "unknown") =
      some (.int (hashInt s (PLAYER_STATS_PREFIX ++ pid)
        ("action:" ++ e.action.getD "unknown") + 1 + 1)) := by
  have heq := process_event_scored_missing_ts s e id pid pn p hid hne hty
    hpid hpn hp hts hfresh h1 h2 h3
  have hok1 : (process_event s e).ok = false := by
    rw [heq]
  have hproc : (process_event s e).st.processed = s.processed := by
    rw [heq]
    dsimp only
    simp only [hsetS_processed, zincrbyS_processed]
  have hlb : (process_event s e).st.leaderboard pn =
      some ((s.leaderboard pn).getD 0 + p) := by
    rw [heq]
    dsimp only
    simp only [hsetS_leaderboard]
    rw [zincrbyS_leaderboard, if_pos rfl]
  have hread_ts : (process_event s e).st.hashes
      (PLAYER_STATS_PREFIX ++ pid) "total_score" =
      some (.int (hashInt s (PLAYER_STATS_PREFIX ++ pid) "total_score"
        + p)) := by
    rw [heq]
    dsimp only
    rw [hsetS_hashes_ne _ _ _ _ _ _ (by simp),
      hsetS_hashes_ne _ _ _ _ _ _ (by
        rintro ⟨-, hf⟩
        exact action_field_ne _ _ (by decide) hf.symm),
      hsetS_hashes_ne _ _ _ _ _ _ (by simp),
      hsetS_hashes_eq]
  have hread_ec : (process_event s e).st.hashes
      (PLAYER_STATS_PREFIX ++ pid) "events_count" =
      some (.int (hashInt s (PLAYER_STATS_PREFIX ++ pid) "events_count"
        + 1)) := by
    rw [heq]
    dsimp only
    rw [hsetS_hashes_ne _ _ _ _ _ _ (by simp),
      hsetS_hashes_ne _ _ _ _ _ _ (by
        rintro ⟨-, hf⟩
        exact action_field_ne _ _ (by decide) hf.symm),
      hsetS_hashes_eq]
  have hread_ac : (process_event s e).st.hashes
      (PLAYER_STATS_PREFIX ++ pid)
      ("action:" ++ e.action.getD "unknown") =
      some (.int (hashInt s (PLAYER_STATS_PREFIX ++ pid)
        ("action:" ++ e.action.getD "unknown") + 1)) := by
    rw [heq]
    dsimp only
    rw [hsetS_hashes_ne _ _ _ _ _ _ (by
        rintro ⟨-, hf⟩
        exact action_field_ne _ _ (by decide) hf),
      hsetS_hashes_eq]
  have hread_pn : (process_event s e).st.hashes
      (PLAYER_STATS_PREFIX ++ pid) "player_name" = some (.str pn) := by
    rw [heq]
    dsimp only
    rw [hsetS_hashes_eq]
  have hread_la : (process_event s e).st.hashes
      (PLAYER_STATS_PREFIX ++ pid) "last_active" =
      s.hashes (PLAYER_STATS_PREFIX ++ pid) "last_active" := by
    rw [heq]
    dsimp only
    rw [hsetS_hashes_ne _ _ _ _ _ _ (by simp),
      hsetS_hashes_ne _ _ _ _ _ _ (by
        rintro ⟨-, hf⟩
        exact action_field_ne _ _ (by decide) hf.symm),
      hsetS_hashes_ne _ _ _ _ _ _ (by simp),
      hsetS_hashes_ne _ _ _ _ _ _ (by simp),
      zincrbyS_hashes]
  have hfresh2 : (process_event s e).st.processed id = false := by
    rw [hproc]
    exact hfresh
  have heq2 := process_event_scored_missing_ts (process_event s e).st e
    id pid pn p hid hne hty hpid hpn hp hts hfresh2
    (Or.inr ⟨_, hread_ts⟩) (Or.inr ⟨_, hread_ec⟩) (Or.inr ⟨_, hread_ac⟩)
  have hi_ts := hashInt_of_eq _ _ _ _ hread_ts
  have hi_ec := hashInt_of_eq _ _ _ _ hread_ec
  have hi_ac := hashInt_of_eq _ _ _ _ hread_ac
  have hlb2 : (process_event (process_event s e).st e).st.leaderboard pn =
      some ((s.leaderboard pn).getD 0 + p + p) := by
    rw [heq2]
    dsimp only
    simp only [hsetS_leaderboard]
    rw [zincrbyS_leaderboard, if_pos rfl, hlb]
    rfl
  have hread2_ts : (process_event (process_event s e).st e).st.hashes
      (PLAYER_STATS_PREFIX ++ pid) "total_score" =
      some (.int (hashInt s (PLAYER_STATS_PREFIX ++ pid) "total_score"
        + p + p)) := by
    rw [heq2]
    dsimp only
    rw [hsetS_hashes_ne _ _ _ _ _ _ (by simp),
      hsetS_hashes_ne _ _ _ _ _ _ (by
        rintro ⟨-, hf⟩
        exact action_field_ne _ _ (by decide) hf.symm),
      hsetS_hashes_ne _ _ _ _ _ _ (by simp),
      hsetS_hashes_eq, hi_ts]
  have hread2_ec : (process_event (process_event s e).st e).st.hashes
      (PLAYER_STATS_PREFIX ++ pid) "events_count" =
      some (.int (hashInt s (PLAYER_STATS_PREFIX ++ pid) "events_count"
        + 1 + 1)) := by
    rw [heq2]
    dsimp only
    rw [hsetS_hashes_ne _ _ _ _ _ _ (by simp),
      hsetS_hashes_ne _ _ _ _ _ _ (by
        rintro ⟨-, hf⟩
        exact action_field_ne _ _ (by decide) hf.symm),
      hsetS_hashes_eq, hi_ec]
  have hread2_ac : (process_event (process_event s e).st e).st.hashes
      (PLAYER_STATS_PREFIX ++ pid)
      ("action:" ++ e.action.getD "unknown") =
      some (.int (hashInt s (PLAYER_STATS_PREFIX ++ pid)
        ("action:" ++ e.action.getD "unknown") + 1 + 1)) := by
    rw [heq2]
    dsimp only
    rw [hsetS_hashes_ne _ _ _ _ _ _ (by
        rintro ⟨-, hf⟩
        exact action_field_ne _ _ (by decide) hf),
      hsetS_hashes_eq, hi_ac]
  exact ⟨hok1, hproc, hlb, hread_ts, hread_ec, hread_ac, hread_pn,
    hread_la, hlb2, hread2_ts, hread2_ec, hread2_ac⟩

/-- The concrete scored event lacking a timestamp, used in the C10
witness. -/
def missing_ts_event : Event :=
  { event_id := some "evt-3", event_type := some "player_scored",
    player_id := some "p3", player_name := some "Bob",
    points := some 7, action := some "kill" }

/-- Witness for C10 at a concrete input. -/
theorem claim_C10_witness :
    (process_event RedisState.empty missing_ts_event).ok = false ∧
    (process_event RedisState.empty missing_ts_event).st.leaderboard
      "Bob" = some 7 ∧
    (process_event (process_event RedisState.empty missing_ts_event).st
      missing_ts_event).st.leaderboard "Bob" = some 14 ∧
    (process_event (process_event RedisState.empty missing_ts_event).st
      missing_ts_event).st.hashes (PLAYER_STATS_PREFIX ++ "p3")
      "total_score" = some (.int 14) := by
  have h := claim_C10_partial_mutation_missing_timestamp RedisState.empty
    missing_ts_event "evt-3" "p3" "Bob" 7 rfl (by decide) rfl rfl rfl rfl
    rfl rfl (Or.inl rfl) (Or.inl rfl) (Or.inl rfl)
  refine ⟨h.1, ?_, ?_, ?_⟩
  · rw [h.2.2.1]
    decide
  · rw [h.2.2.2.2.2.2.2.2.1]
    decide
  · rw [h.2.2.2.2.2.2.2.2.2.1]
    decide

/-! ### Additivity of scored events (C3) -/

/-- A well-formed scored event for the player displayed as `pn`: its id
and kind are present and truthy, and the fields read before the
leaderboard `ZINCRBY` are present. -/
def ScoredEventFor (pn : String) (e : Event) : Prop :=
  e.event_type = some "player_scored" ∧
  e.event_id ≠ none ∧ e.event_id ≠ some "" ∧
  e.player_id ≠ none ∧ e.points ≠ none ∧
  e.player_name = some pn

instance (pn : String) (e : Event) : Decidable (ScoredEventFor pn e) := by
  unfold ScoredEventFor
  infer_instance

/-- An event with a different id (or none) leaves a fresh id fresh. -/
theorem process_event_preserves_fresh (s : RedisState) (e : Event)
    (x : String) (h1 : s.processed x = false)
    (h2 : e.event_id ≠ some x) :
    (process_event s e).st.processed x = false := by
  cases hb : (process_event s e).st.processed x
  · rfl
  · rcases process_event_processed_subset s e x hb with h | h
    · rw [h1] at h
      cases h
    · exact absurd h h2

/-- Processing the head of an event list with pairwise-distinct fresh ids
keeps the tail's ids pairwise-distinct and fresh. -/
theorem step_tail (s : RedisState) (e : Event) (t : List Event)
    (hnd : ((e :: t).filterMap Event.event_id).Nodup)
    (hfresh : ∀ i ∈ (e :: t).filterMap Event.event_id,
      s.processed i = false) :
    (t.filterMap Event.event_id).Nodup ∧
    (∀ i ∈ t.filterMap Event.event_id,
      (process_event s e).st.processed i = false) := by
  rcases hid0 : e.event_id with _ | id0
  · rw [List.filterMap_cons_none hid0] at hnd hfresh
    refine ⟨hnd, fun i hi => ?_⟩
    refine process_event_preserves_fresh s e i (hfresh i hi) ?_
    rw [hid0]
    simp
  · rw [List.filterMap_cons_some hid0] at hnd hfresh
    have hnotin := (List.nodup_cons.mp hnd).1
    refine ⟨(List.nodup_cons.mp hnd).2, fun i hi => ?_⟩
    refine process_event_preserves_fresh s e i
      (hfresh i (List.mem_cons_of_mem _ hi)) ?_
    rw [hid0]
    intro hcontra
    injection hcontra with h'
    exact hnotin (h' ▸ hi)

/-- C3: additivity.  For a sequence of distinct fresh well-formed Scored
events for one player name, interleaved arbitrarily with events for other
player names, the final leaderboard score is the initial score plus the
sum of the points of that player's events. -/
theorem claim_C3_additivity (evs : List Event) (s : RedisState)
    (pn : String)
    (hnd : (evs.filterMap Event.event_id).Nodup)
    (hfresh : ∀ id ∈ evs.filterMap Event.event_id,
      s.processed id = false)
    (hwf : ∀ e ∈ evs, e.player_name = some pn → ScoredEventFor pn e) :
    ((processAll s evs).leaderboard pn).getD 0 =
      (s.leaderboard pn).getD 0 +
      ((evs.filter (fun e => e.player_name = some pn)).map
        (fun e => e.points.getD 0)).sum := by
  induction evs generalizing s with
  | nil => simp [processAll]
  | cons e t ih =>
    have hstep : processAll s (e :: t) =
        processAll (process_event s e).st t := rfl
    obtain ⟨hnd', hfresh'⟩ := step_tail s e t hnd hfresh
    have hwf' : ∀ e' ∈ t, e'.player_name = some pn →
        ScoredEventFor pn e' :=
      fun e' he' => hwf e' (List.mem_cons_of_mem _ he')
    have iht := ih (process_event s e).st hnd' hfresh' hwf'
    by_cases hpn : e.player_name = some pn
    · obtain ⟨hty, hid0, hid1, hpid0, hp0, -⟩ :=
        hwf e (List.mem_cons_self e t) hpn
      rcases hid : e.event_id with _ | id
      · exact absurd hid hid0
      rcases hpid : e.player_id with _ | pid
      · exact absurd hpid hpid0
      rcases hp : e.points with _ | p
      · exact absurd hp hp0
      have hne : id ≠ "" := by
        intro h
        rw [h] at hid
        exact hid1 hid
      have hfr : s.processed id = false := by
        refine hfresh id ?_
        rw [List.filterMap_cons_some hid]
        exact List.mem_cons_self _ _
      have happ := process_event_scored_apply s e id pid pn p hid hne hty
        hpid hpn hp hfr
      rw [hstep, iht, happ]
      rw [List.filter_cons_of_pos (by simp [hpn]), List.map_cons,
        List.sum_cons, hp]
      simp only [Option.getD_some]
      ring
    · have hframe := process_event_leaderboard_frame s e pn (by
        intro h
        exact hpn h)
      rw [hstep, iht, hframe,
        List.filter_cons_of_neg (by simp [hpn])]

/-- A fully-formed scored event built from its parameters, for concrete
witnesses. -/
def mkScored (id pid pn : String) (p : Int) : Event :=
  { event_id := some id, event_type := some "player_scored",
    player_id := some pid, player_name := some pn,
    points := some p, action := some "kill", timestamp := some "t" }

/-- Witness for C3 at a concrete input: two scored events for `A`
interleaved with one for `B`. -/
theorem claim_C3_witness :
    ((processAll RedisState.empty
        [mkScored "a1" "p1" "A" 5, mkScored "b1" "p2" "B" 3,
         mkScored "a2" "p1" "A" 7]).leaderboard "A").getD 0 =
      (RedisState.empty.leaderboard "A").getD 0 +
      (([mkScored "a1" "p1" "A" 5, mkScored "b1" "p2" "B" 3,
         mkScored "a2" "p1" "A" 7].filter
          (fun e => e.player_name = some "A")).map
        (fun e => e.points.getD 0)).sum :=
  claim_C3_additivity _ RedisState.empty "A" (by decide) (by decide)
    (by decide)

/-! ### The achievement feed bound (C4) -/

/-- Trimming to `n` after appending on the left absorbs an earlier trim of
the right part. -/
theorem take_append_take {α : Type} (l m : List α) (n : Nat) :
    (l ++ m.take n).take n = (l ++ m).take n := by
  rw [List.take_append_eq_append_take, List.take_append_eq_append_take,
    List.take_take, Nat.min_eq_left (Nat.sub_le n l.length)]

/-- A well-formed achievement event: id and kind present and truthy, and
every field the handler reads present. -/
def AchievementEventWf (e : Event) : Prop :=
  e.event_type = some "achievement_unlocked" ∧
  e.event_id ≠ none ∧ e.event_id ≠ some "" ∧
  e.player_name ≠ none ∧ e.achievement_name ≠ none ∧
  e.achievement_rarity ≠ none ∧ e.timestamp ≠ none

instance (e : Event) : Decidable (AchievementEventWf e) := by
  unfold AchievementEventWf
  infer_instance

/-- The feed record an achievement event serializes to. -/
def recordOf (e : Event) : AchRecord :=
  ⟨e.player_name.getD "", e.achievement_name.getD "",
   e.achievement_rarity.getD "", e.timestamp.getD ""⟩

/-- One `process_event` keeps the feed within the 100-entry cap. -/
theorem process_event_feed_len (s : RedisState) (e : Event)
    (h : s.achievements.length ≤ 100) :
    (process_event s e).st.achievements.length ≤ 100 := by
  rcases process_event_achievements_cases s e with hc | ⟨r, hc⟩ <;> rw [hc]
  · exact h
  · rw [List.length_take]
    exact min_le_left _ _

/-- Any event sequence keeps the feed within the 100-entry cap. -/
theorem processAll_feed_len (s : RedisState) (evs : List Event)
    (h : s.achievements.length ≤ 100) :
    (processAll s evs).achievements.length ≤ 100 := by
  induction evs generalizing s with
  | nil => exact h
  | cons e t ih => exact ih (process_event s e).st (process_event_feed_len s e h)

/-- After a sequence of distinct fresh well-formed achievement events the
feed is the reversed record list prepended to the old feed, trimmed to
100. -/
theorem feed_after_achievements (as : List Event) (s : RedisState)
    (hwf : ∀ e ∈ as, AchievementEventWf e)
    (hnd : (as.filterMap Event.event_id).Nodup)
    (hfresh : ∀ i ∈ as.filterMap Event.event_id, s.processed i = false)
    (hlen : s.achievements.length ≤ 100) :
    (processAll s as).achievements =
      ((as.map recordOf).reverse ++ s.achievements).take 100 := by
  induction as generalizing s with
  | nil =>
    simp only [processAll, List.foldl_nil, List.map_nil,
      List.reverse_nil, List.nil_append]
    exact (List.take_of_length_le hlen).symm
  | cons a t ih =>
    obtain ⟨hty, hid0, hid1, hpn0, han0, har0, hts0⟩ :=
      hwf a (List.mem_cons_self a t)
    rcases hid : a.event_id with _ | id
    · exact absurd hid hid0
    rcases hpn : a.player_name with _ | pn
    · exact absurd hpn hpn0
    rcases han : a.achievement_name with _ | an
    · exact absurd han han0
    rcases har : a.achievement_rarity with _ | ar
    · exact absurd har har0
    rcases hts : a.timestamp with _ | ts
    · exact absurd hts hts0
    have hne : id ≠ "" := by
      intro h
      rw [h] at hid
      exact hid1 hid
    have hfr : s.processed id = false := by
      refine hfresh id ?_
      rw [List.filterMap_cons_some hid]
      exact List.mem_cons_self _ _
    have happ := process_event_achievement_apply s a id pn an ar ts hid hne
      hty hpn han har hts hfr
    have hrec : recordOf a = ⟨pn, an, ar, ts⟩ := by
      simp [recordOf, hpn, han, har, hts]
    obtain ⟨hnd', hfresh'⟩ := step_tail s a t hnd hfresh
    have hlen' : (process_event s a).st.achievements.length ≤ 100 := by
      rw [happ.1, List.length_take]
      exact min_le_left _ _
    have hstep : processAll s (a :: t) =
        processAll (process_event s a).st t := rfl
    rw [hstep, ih (process_event s a).st
      (fun e' he' => hwf e' (List.mem_cons_of_mem _ he')) hnd' hfresh'
      hlen', happ.1, ← hrec, take_append_take, List.map_cons,
      List.reverse_cons, List.append_assoc, List.singleton_append]

/-- C4: (i) processing any events never lets the feed exceed 100 entries;
(ii) after more than 100 distinct fresh well-formed achievement events the
feed is exactly the 100 most recently applied records, newest first;
(iii) within each application the handler pushes to the front before it
trims to 100. -/
theorem claim_C4_feed_bound :
    (∀ (s : RedisState) (evs : List Event),
      s.achievements.length ≤ 100 →
      (processAll s evs).achievements.length ≤ 100) ∧
    (∀ (s : RedisState) (as : List Event),
      (∀ e ∈ as, AchievementEventWf e) →
      (as.filterMap Event.event_id).Nodup →
      (∀ i ∈ as.filterMap Event.event_id, s.processed i = false) →
      s.achievements.length ≤ 100 →
      100 < as.length →
      (processAll s as).achievements =
        ((as.map recordOf).reverse).take 100) ∧
    (∀ (s : RedisState) (e : Event) (pn an ar ts : String),
      e.player_name = some pn → e.achievement_name = some an →
      e.achievement_rarity = some ar → e.timestamp = some ts →
      (handle_achievement s e).tr =
        [Op.lpush ACHIEVEMENTS_KEY ⟨pn, an, ar, ts⟩,
         Op.ltrim ACHIEVEMENTS_KEY 0 99]) := by
  refine ⟨processAll_feed_len, ?_, ?_⟩
  · intro s as hwf hnd hfresh hlen hlong
    rw [feed_after_achievements as s hwf hnd hfresh hlen,
      List.take_append_of_le_length]
    rw [List.length_reverse, List.length_map]
    exact le_of_lt hlong
  · intro s e pn an ar ts hpn han har hts
    rw [handle_achievement_apply s e pn an ar ts hpn han har hts]

/-- The `i`-th concrete achievement event of the C4 witness. -/
def achEvent (i : Nat) : Event :=
  { event_id := some ("ach-" ++ toString i),
    event_type := some "achievement_unlocked",
    player_id := some "p1", player_name := some "A",
    achievement_name := some ("badge-" ++ toString i),
    achievement_rarity := some "rare", timestamp := some "t" }

/-- 101 distinct well-formed achievement events. -/
def achEvents : List Event := (List.range 101).map achEvent

/-- Witness for C4 at concrete inputs: 101 distinct achievement events on
an empty store, and the push-before-trim trace of one application. -/
theorem claim_C4_witness :
    (processAll RedisState.empty achEvents).achievements.length ≤ 100 ∧
    (processAll RedisState.empty achEvents).achievements =
      ((achEvents.map recordOf).reverse).take 100 ∧
    (handle_achievement RedisState.empty (achEvent 0)).tr =
      [Op.lpush ACHIEVEMENTS_KEY ⟨"A", "badge-0", "rare", "t"⟩,
       Op.ltrim ACHIEVEMENTS_KEY 0 99] :=
  ⟨claim_C4_feed_bound.1 RedisState.empty achEvents (by decide),
   claim_C4_feed_bound.2.1 RedisState.empty achEvents (by decide)
     (by decide) (by decide) (by decide) (by decide),
   claim_C4_feed_bound.2.2 RedisState.empty (achEvent 0) "A" "badge-0"
     "rare" "t" rfl rfl rfl rfl⟩

end Leaderboard
